import Mathlib

/-!
# FocusFlow: the session/phase state machine and the reward ledger

A shallow embedding of the state logic of `src/focusflow.js` (the hooks
`useTimer` and `useGamification`, and the completion effect of `TimerPage`).

Modelling conventions.

* Each `useState` cell becomes a field of a record; an event handler becomes a
  function from the record of the render it was created in to the record of the
  next render.  Inside one handler the `set...` calls are applied in program
  order.  A `set...` call made from inside an updater function is applied after
  the value that the updater returns.
* A callback that outlives its render (the callback of the tick interval) keeps
  reading the cells of the render that created it; the state of `useTimer`
  therefore also records which render the pending interval belongs to.
* JavaScript numbers that hold minutes, seconds and experience points are
  modelled by `Int`; the `cycle` counter, which starts at `1` and is only ever
  incremented, by `Nat`.
* `phase` only ever holds one of the three strings `'focus'`, `'shortBreak'`
  and `'longBreak'`; it is modelled by an enumeration.
* Sound playback and `localStorage` writes do not feed back into the state and
  are left out; the calendar date read by `new Date()` is a parameter `today`.
-/

namespace FocusFlow

/-! ## Data model -/

/-- The values of the `phase` cell of `useTimer`. -/
inductive Phase where
  | focus
  | shortBreak
  | longBreak
  deriving DecidableEq, Repr

/-- The `settings` object of `useTimer`: the length of each phase in minutes. -/
structure Settings where
  focusTime : Int
  shortBreak : Int
  longBreak : Int
  deriving DecidableEq, Repr

/-- The state cells of `useTimer` (lines 142-151). -/
structure TimerState where
  time : Int
  totalTime : Int
  isRunning : Bool
  phase : Phase
  cycle : Nat
  settings : Settings
  deriving DecidableEq, Repr

/-- The `user` object of `useGamification` (lines 257-263). -/
structure User where
  level : Int
  currentXP : Int
  totalXP : Int
  streak : Int
  lastActiveDate : String
  deriving DecidableEq, Repr

/-- One daily task (the objects of lines 273-275). -/
structure Task where
  id : String
  type : String
  title : String
  description : String
  target : Int
  current : Int
  completed : Bool
  xpReward : Int
  deriving DecidableEq, Repr

/-- One entry of the `daily-tasks` list: the tasks of one calendar date. -/
structure TaskGroup where
  date : String
  tasks : List Task
  deriving DecidableEq, Repr

/-! ## `useTimer` -/

/-- The default settings of line 147. -/
def defaultSettings : Settings :=
  { focusTime := 25, shortBreak := 5, longBreak := 15 }

/-- The state of `useTimer` after mounting: the `useState` initial values
(lines 142-151), overridden by the mount effect (lines 153-161) when
`storage.get 'timer-settings'` finds saved settings. -/
def initTimer (savedSettings : Option Settings) : TimerState :=
  let s : TimerState :=
    { time := 25 * 60, totalTime := 25 * 60, isRunning := false,
      phase := Phase.focus, cycle := 1, settings := defaultSettings }
  match savedSettings with
  | some saved =>
    let focusTime := saved.focusTime * 60
    { s with settings := saved, time := focusTime, totalTime := focusTime }
  | none => s

/-- The handler `completeSession` (lines 179-196). -/
def completeSession (s : TimerState) : TimerState :=
  let s1 : TimerState := { s with isRunning := false }
  if s.phase = Phase.focus then
    let nextPhase := if s.cycle % 4 = 0 then Phase.longBreak else Phase.shortBreak
    let nextTime :=
      if nextPhase = Phase.longBreak then s.settings.longBreak * 60
      else s.settings.shortBreak * 60
    { s1 with phase := nextPhase, time := nextTime, totalTime := nextTime,
              cycle := s.cycle + 1 }
  else
    let nextTime := s.settings.focusTime * 60
    { s1 with phase := Phase.focus, time := nextTime, totalTime := nextTime }

/-- The handler `startTimer` (lines 198-201). -/
def startTimer (s : TimerState) : TimerState :=
  { s with isRunning := true }

/-- The handler `pauseTimer` (lines 203-205). -/
def pauseTimer (s : TimerState) : TimerState :=
  { s with isRunning := false }

/-- The handler `resetTimer` (lines 207-214). -/
def resetTimer (s : TimerState) : TimerState :=
  let currentPhaseTime :=
    if s.phase = Phase.focus then s.settings.focusTime * 60
    else if s.phase = Phase.shortBreak then s.settings.shortBreak * 60
    else s.settings.longBreak * 60
  { s with isRunning := false, time := currentPhaseTime, totalTime := currentPhaseTime }

/-- The handler `skipPhase` (lines 216-218). -/
def skipPhase (s : TimerState) : TimerState :=
  completeSession s

/-- The handler `updateSettings` (lines 226-237). -/
def updateSettings (newSettings : Settings) (s : TimerState) : TimerState :=
  let s1 : TimerState := { s with settings := newSettings }
  if !s.isRunning then
    let currentPhaseTime :=
      if s.phase = Phase.focus then newSettings.focusTime * 60
      else if s.phase = Phase.shortBreak then newSettings.shortBreak * 60
      else newSettings.longBreak * 60
    { s1 with time := currentPhaseTime, totalTime := currentPhaseTime }
  else s1

/-- The handler `completeSession` (lines 179-196) as a callback created by an
earlier render `closure` runs it: `phase`, `cycle` and `settings` are the ones
of `closure` (the dependencies of the `useCallback`), the writes go to the
current cells `s`, and `setCycle(prev => prev + 1)` increments the current
`cycle`. -/
def completeSessionFrom (closure s : TimerState) : TimerState :=
  let s1 : TimerState := { s with isRunning := false }
  if closure.phase = Phase.focus then
    let nextPhase := if closure.cycle % 4 = 0 then Phase.longBreak else Phase.shortBreak
    let nextTime :=
      if nextPhase = Phase.longBreak then closure.settings.longBreak * 60
      else closure.settings.shortBreak * 60
    { s1 with phase := nextPhase, time := nextTime, totalTime := nextTime,
              cycle := s.cycle + 1 }
  else
    let nextTime := closure.settings.focusTime * 60
    { s1 with phase := Phase.focus, time := nextTime, totalTime := nextTime }

/-- The state of `useTimer` between two events: the cells of the latest render,
and the pending tick interval, given by the cells of the render whose effect
created it (`none` when there is no interval). -/
structure TimerHook where
  cells : TimerState
  interval : Option TimerState
  deriving DecidableEq, Repr

/-- The tick effect (lines 163-177) after a render with cells `next`.  Its
dependencies are `[isRunning, time]`: when one of them changed, the cleanup
clears the old interval and the effect creates a new one if
`isRunning && time > 0`, with a callback that belongs to the render `next`;
when neither changed, the old interval stays, with the callback of its own
render. -/
def tickEffect (prev : TimerHook) (next : TimerState) : TimerHook :=
  { cells := next,
    interval :=
      if next.isRunning ≠ prev.cells.isRunning ∨ next.time ≠ prev.cells.time then
        (if next.isRunning ∧ next.time > 0 then some next else none)
      else prev.interval }

/-- A handler of `useTimer` called from the page: the handler of the latest
render runs, the hook renders again, and the tick effect follows. -/
def TimerHook.handle (handler : TimerState → TimerState) (h : TimerHook) : TimerHook :=
  tickEffect h (handler h.cells)

/-- One firing of the pending interval (lines 166-174), if there is one.  The
updater receives the current `time`.  Above 1 it returns `prevTime - 1`.
Otherwise it calls the `completeSession` of the render that created the
interval and returns `0`; the writes of that `completeSession`, `setTime`
included, are applied after the returned `0`, so `time` ends at the duration
that `completeSession` loaded. -/
def tick (h : TimerHook) : TimerHook :=
  match h.interval with
  | none => h
  | some closure =>
    if h.cells.time ≤ 1 then
      tickEffect h (completeSessionFrom closure h.cells)
    else
      tickEffect h { h.cells with time := h.cells.time - 1 }

/-- The state after `n` firings of the interval, one after the other. -/
def ticks : Nat → TimerHook → TimerHook
  | 0, h => h
  | n + 1, h => tick (ticks n h)

/-- The state of `useTimer` after mounting: the tick effect has run for the
first render and for the render that follows the loading of saved settings. -/
def initHook (savedSettings : Option Settings) : TimerHook :=
  tickEffect
    { cells := initTimer none,
      interval := if (initTimer none).isRunning ∧ (initTimer none).time > 0
        then some (initTimer none) else none }
    (initTimer savedSettings)

/-- The state after `n` phase completions, one after the other. -/
def completeTimes : Nat → TimerState → TimerState
  | 0, s => s
  | n + 1, s => completeSession (completeTimes n s)

/-! ## `useGamification` -/

/-- The default `user` of lines 257-263; `today` is the current calendar date. -/
def defaultUser (today : String) : User :=
  { level := 1, currentXP := 0, totalXP := 0, streak := 0, lastActiveDate := today }

/-- The default tasks of lines 272-276. -/
def defaultTasks : List Task :=
  [ { id := "focus1", type := "focus", title := "Complete 3 Focus Sessions",
      description := "Stay focused for 3 complete sessions",
      target := 3, current := 0, completed := false, xpReward := 50 },
    { id := "streak1", type := "streak", title := "Keep Your Streak",
      description := "Maintain your daily activity streak",
      target := 1, current := 0, completed := false, xpReward := 25 },
    { id := "time1", type := "time", title := "Focus for 2 Hours",
      description := "Complete 2 hours of focused work",
      target := 120, current := 0, completed := false, xpReward := 75 } ]

/-- The initial value of the `dailyTasks` cell (lines 266-282): the saved list,
extended by a group of default tasks when it has no group dated `today`. -/
def initDailyTasks (today : String) (saved : List TaskGroup) : List TaskGroup :=
  match saved.find? (fun task => task.date == today) with
  | none => saved ++ [{ date := today, tasks := defaultTasks }]
  | some _ => saved

/-- The updater of `addXP` (lines 296-318). -/
def addXP (amount : Int) (prev : User) : User :=
  let newXP := prev.currentXP + amount
  let xpForNextLevel : Int := 1000
  if newXP ≥ xpForNextLevel then
    let newLevel := prev.level + 1
    { prev with level := newLevel, currentXP := newXP - xpForNextLevel,
                totalXP := prev.totalXP + amount }
  else
    { prev with currentXP := newXP, totalXP := prev.totalXP + amount }

/-- The callback of the inner `map` of `updateDailyTasks` (lines 333-343): the
task it returns, and the amounts it passes to `addXP`, in call order. -/
def updateTask (task : Task) : Task × List Int :=
  if task.type = "focus" ∧ task.completed = false then
    let newCurrent := task.current + 1
    if newCurrent ≥ task.target then
      ({ task with current := newCurrent, completed := true }, [task.xpReward])
    else
      ({ task with current := newCurrent }, [])
  else (task, [])

/-- The callback of the outer `map` of `updateDailyTasks` (lines 331-347): the
group it returns, and the amounts passed to `addXP` while computing it. -/
def updateGroup (today : String) (taskGroup : TaskGroup) : TaskGroup × List Int :=
  if taskGroup.date = today then
    let updated := taskGroup.tasks.map updateTask
    ({ taskGroup with tasks := updated.map Prod.fst }, (updated.map Prod.snd).flatten)
  else (taskGroup, [])

/-- The updater of `updateDailyTasks` (lines 327-349): the new list of groups,
and the amounts passed to `addXP` while computing it, in call order. -/
def updateDailyTasks (today : String) (prev : List TaskGroup) : List TaskGroup × List Int :=
  let updated := prev.map (updateGroup today)
  (updated.map Prod.fst, (updated.map Prod.snd).flatten)

/-- Successive calls of `updateDailyTasks`, one for each date of `days` (the
value of `today` at that call): the final list of groups and all amounts
awarded, in call order. -/
def recordDaily : List String → List TaskGroup → List TaskGroup × List Int
  | [], prev => (prev, [])
  | today :: days, prev =>
    ((recordDaily days (updateDailyTasks today prev).1).1,
     (updateDailyTasks today prev).2 ++ (recordDaily days (updateDailyTasks today prev).1).2)

/-- The state cells of `useGamification` that its handlers change.  (The
`achievements` cell is never written.) -/
structure Gamification where
  user : User
  dailyTasks : List TaskGroup
  deriving DecidableEq, Repr

/-- The handler `updateDailyTasks` on the state: the task list is replaced and
every `addXP` call made by the updater is applied to `user`, in call order. -/
def Gamification.updateDailyTasks (today : String) (g : Gamification) : Gamification :=
  { user := (FocusFlow.updateDailyTasks today g.dailyTasks).2.foldl
      (fun u amount => addXP amount u) g.user,
    dailyTasks := (FocusFlow.updateDailyTasks today g.dailyTasks).1 }

/-- The handler `completeSession` of `useGamification` (lines 320-325). -/
def Gamification.completeSession (today : String) (phase : Phase) (g : Gamification) :
    Gamification :=
  if phase = Phase.focus then
    Gamification.updateDailyTasks today { g with user := addXP 25 g.user }
  else g

/-- The initial state of `useGamification` (lines 257-282). -/
def initGamification (today : String) (savedUser : Option User)
    (savedTasks : List TaskGroup) : Gamification :=
  { user := savedUser.getD (defaultUser today),
    dailyTasks := initDailyTasks today savedTasks }

/-! ## `TimerPage` -/

/-- The state of `TimerPage`: the two hooks it calls. -/
structure App where
  timer : TimerHook
  game : Gamification
  deriving DecidableEq, Repr

/-- The function `handleSessionComplete` (lines 687-691), closed over the timer
state of the render it belongs to. -/
def handleSessionComplete (today : String) (timer : TimerState) (g : Gamification) :
    Gamification :=
  if timer.phase = Phase.focus then
    Gamification.completeSession today Phase.focus g
  else g

/-- The completion effect (lines 693-697) after a render with timer state
`next` that follows a render with timer state `prev`: it runs when
`isRunning` or `time` changed, and calls `handleSessionComplete` when the
clock is stopped at zero. -/
def completionEffect (today : String) (prev next : TimerState) (g : Gamification) :
    Gamification :=
  if next.isRunning ≠ prev.isRunning ∨ next.time ≠ prev.time then
    if next.isRunning = false ∧ next.time = 0 then handleSessionComplete today next g
    else g
  else g

/-- One event of `TimerPage` that a button or the settings form triggers: a
timer handler runs, the page renders again, and the completion effect runs
against the new timer cells. -/
def App.step (today : String) (handler : TimerState → TimerState) (a : App) : App :=
  { timer := a.timer.handle handler,
    game := completionEffect today a.timer.cells (a.timer.handle handler).cells a.game }

/-- One firing of the tick interval on the page: the timer ticks, the page
renders again, and the completion effect runs against the new timer cells. -/
def App.tick (today : String) (a : App) : App :=
  { timer := FocusFlow.tick a.timer,
    game := completionEffect today a.timer.cells (FocusFlow.tick a.timer).cells a.game }

/-- The page after `n` firings of the tick interval. -/
def App.ticks (today : String) : Nat → App → App
  | 0, a => a
  | n + 1, a => App.tick today (App.ticks today n a)

/-- The page after mounting: both hooks in their initial state; the completion
effect has run for the first render and for the render that follows the
loading of saved settings. -/
def initApp (today : String) (savedSettings : Option Settings) (savedUser : Option User)
    (savedTasks : List TaskGroup) : App :=
  { timer := initHook savedSettings,
    game := completionEffect today (initTimer none) (initTimer savedSettings)
      (if (initTimer none).isRunning = false ∧ (initTimer none).time = 0 then
        handleSessionComplete today (initTimer none) (initGamification today savedUser savedTasks)
       else initGamification today savedUser savedTasks) }

/-- The page of a first visit (nothing saved) after `startTimer` and then
`n` firings of the tick interval. -/
def freshRun (today : String) (n : Nat) : App :=
  App.ticks today n (App.step today startTimer (initApp today none none []))

/-- The page of `freshRun today 1500`, after `resetTimer`, `startTimer` and
then `n` firings of the tick interval. -/
def freshBreakRun (today : String) (n : Nat) : App :=
  App.ticks today n
    (App.step today startTimer (App.step today resetTimer (freshRun today 1500)))

/-! ## Sequences of timer events -/

/-- The events that change the state of `useTimer`: the five handlers the page
calls (lines 246-251) and a firing of the tick interval. -/
inductive TimerEvent where
  | startTimer
  | pauseTimer
  | tick
  | resetTimer
  | skipPhase
  | updateSettings (newSettings : Settings)
  deriving DecidableEq, Repr

/-- The state of `useTimer` after one event. -/
def TimerEvent.apply (e : TimerEvent) (h : TimerHook) : TimerHook :=
  match e with
  | TimerEvent.startTimer => h.handle FocusFlow.startTimer
  | TimerEvent.pauseTimer => h.handle FocusFlow.pauseTimer
  | TimerEvent.tick => FocusFlow.tick h
  | TimerEvent.resetTimer => h.handle FocusFlow.resetTimer
  | TimerEvent.skipPhase => h.handle FocusFlow.skipPhase
  | TimerEvent.updateSettings newSettings => h.handle (FocusFlow.updateSettings newSettings)

/-- The state of `useTimer` after a sequence of events, first event first. -/
def runEvents : List TimerEvent → TimerHook → TimerHook
  | [], h => h
  | e :: rest, h => runEvents rest (e.apply h)

/-! ## The settings form -/

/-- The white space that the ECMAScript builtin `parseInt` skips at the start
of its argument (`StrWhiteSpaceChar`), by code point. -/
def isStrWhiteSpace (c : Char) : Bool :=
  c.toNat = 9 || c.toNat = 10 || c.toNat = 11 || c.toNat = 12 || c.toNat = 13 ||
  c.toNat = 32 || c.toNat = 160 || c.toNat = 5760 ||
  (8192 ≤ c.toNat && c.toNat ≤ 8202) ||
  c.toNat = 8232 || c.toNat = 8233 || c.toNat = 8239 || c.toNat = 8287 ||
  c.toNat = 12288 || c.toNat = 65279

/-- The value of a character as a digit of the given radix: `0`-`9`, then
`a`-`z` or `A`-`Z` for ten and up. -/
def digitValue (radix : Nat) (c : Char) : Option Nat :=
  let v : Option Nat :=
    if 48 ≤ c.toNat ∧ c.toNat ≤ 57 then some (c.toNat - 48)
    else if 97 ≤ c.toNat ∧ c.toNat ≤ 122 then some (c.toNat - 87)
    else if 65 ≤ c.toNat ∧ c.toNat ≤ 90 then some (c.toNat - 55)
    else none
  match v with
  | some d => if d < radix then some d else none
  | none => none

/-- The digits at the start of a text, up to the first character that is not
a digit of the radix. -/
def leadingDigits (radix : Nat) : List Char → List Nat
  | [] => []
  | c :: rest =>
    match digitValue radix c with
    | some d => d :: leadingDigits radix rest
    | none => []

/-- The ECMAScript builtin `parseInt` called with one argument, as line 422
calls it: skip leading white space, read an optional sign, read an optional
`0x` or `0X` (radix 16, otherwise radix 10), and take the digits that follow.
The result is `none` for `NaN` (no digit found); the integer is exact. -/
def parseInt (value : String) : Option Int :=
  let trimmed := value.toList.dropWhile isStrWhiteSpace
  let negative : Bool :=
    match trimmed with
    | c :: _ => c.toNat = 45
    | [] => false
  let unsigned : List Char :=
    match trimmed with
    | c :: rest => if c.toNat = 45 ∨ c.toNat = 43 then rest else trimmed
    | [] => []
  let radix : Nat :=
    match unsigned with
    | c0 :: cx :: _ => if c0.toNat = 48 ∧ (cx.toNat = 120 ∨ cx.toNat = 88) then 16 else 10
    | _ => 10
  let body : List Char := if radix = 16 then unsigned.drop 2 else unsigned
  let digits := leadingDigits radix body
  if digits = [] then none
  else
    let mathInt : Nat := digits.foldl (fun acc d => acc * radix + d) 0
    some (if negative then -(mathInt : Int) else (mathInt : Int))

/-- The keys with which the three inputs call `handleUpdate` (lines 448, 466
and 484). -/
inductive SettingsKey where
  | focusTime
  | shortBreak
  | longBreak
  deriving DecidableEq, Repr

/-- The settings object that `Settings.handleUpdate` (lines 421-425) builds and
passes to `onUpdate`, which is `updateSettings`: the local settings with the
field `key` replaced by `parseInt(value) || 1`, where `NaN` and `0` are the
falsy results. -/
def handleUpdate (localSettings : Settings) (key : SettingsKey) (value : String) : Settings :=
  let parsed : Int :=
    match parseInt value with
    | some n => if n = 0 then 1 else n
    | none => 1
  match key with
  | SettingsKey.focusTime => { localSettings with focusTime := parsed }
  | SettingsKey.shortBreak => { localSettings with shortBreak := parsed }
  | SettingsKey.longBreak => { localSettings with longBreak := parsed }

/-! ## Phase transitions -/

/-- C1: from a focus phase with cycle `c`, `completeSession` enters `longBreak`
when `c % 4 = 0` and `shortBreak` otherwise, sets `cycle` to `c + 1`, sets
`time` and `totalTime` to 60 times the configured minutes of the chosen break,
and stops the clock. -/
theorem completeSession_from_focus (s : TimerState) (h : s.phase = Phase.focus) :
    (completeSession s).phase
        = (if s.cycle % 4 = 0 then Phase.longBreak else Phase.shortBreak) ∧
    (completeSession s).cycle = s.cycle + 1 ∧
    (completeSession s).time
        = (if s.cycle % 4 = 0 then s.settings.longBreak * 60 else s.settings.shortBreak * 60) ∧
    (completeSession s).totalTime
        = (if s.cycle % 4 = 0 then s.settings.longBreak * 60 else s.settings.shortBreak * 60) ∧
    (completeSession s).isRunning = false := by
  by_cases hc : s.cycle % 4 = 0 <;> simp [completeSession, h, hc]

/-- Witness of C1 at a running focus phase of cycle 4 with the default settings. -/
theorem completeSession_from_focus_witness :
    (completeSession ⟨7, 1500, true, Phase.focus, 4, defaultSettings⟩).phase
        = Phase.longBreak ∧
    (completeSession ⟨7, 1500, true, Phase.focus, 4, defaultSettings⟩).time = 900 := by
  have h := completeSession_from_focus ⟨7, 1500, true, Phase.focus, 4, defaultSettings⟩ rfl
  refine ⟨h.1.trans (by decide), h.2.2.1.trans (by decide)⟩

/-- C2: from a short or long break, `completeSession` enters `focus`, leaves
`cycle` unchanged, sets `time` and `totalTime` to `settings.focusTime * 60`,
and stops the clock. -/
theorem completeSession_from_break (s : TimerState)
    (h : s.phase = Phase.shortBreak ∨ s.phase = Phase.longBreak) :
    (completeSession s).phase = Phase.focus ∧
    (completeSession s).cycle = s.cycle ∧
    (completeSession s).time = s.settings.focusTime * 60 ∧
    (completeSession s).totalTime = s.settings.focusTime * 60 ∧
    (completeSession s).isRunning = false := by
  rcases h with h | h <;> simp [completeSession, h]

/-- Witness of C2 at a running long break. -/
theorem completeSession_from_break_witness :
    (completeSession ⟨3, 900, true, Phase.longBreak, 5, defaultSettings⟩).phase
        = Phase.focus ∧
    (completeSession ⟨3, 900, true, Phase.longBreak, 5, defaultSettings⟩).cycle = 5 :=
  ⟨(completeSession_from_break ⟨3, 900, true, Phase.longBreak, 5, defaultSettings⟩
      (Or.inr rfl)).1,
   (completeSession_from_break ⟨3, 900, true, Phase.longBreak, 5, defaultSettings⟩
      (Or.inr rfl)).2.1⟩

/-- After `2 * k` completions from the initial state the timer is in a focus
phase again, with `k` added to the cycle counter and the duration reloaded. -/
theorem completeTimes_even (saved : Option Settings) (k : Nat) :
    completeTimes (2 * k) (initTimer saved)
      = { initTimer saved with cycle := k + 1 } := by
  induction k with
  | zero => cases saved <;> rfl
  | succ k ih =>
    have h2 : 2 * (k + 1) = 2 * k + 1 + 1 := by ring
    rw [h2]
    simp only [completeTimes]
    rw [ih]
    cases saved <;> by_cases h : (k + 1) % 4 = 0 <;>
      simp [completeSession, initTimer, h, defaultSettings]

/-- C3: starting from the initial state (focus, cycle 1, any saved settings),
the `k`-th break entered, which is the phase after `2 * k - 1` completions, is
`longBreak` exactly when `k` is a multiple of 4 and `shortBreak` otherwise, and
the completion after it leads back to `focus`; breaks 1, 2 and 3 are short and
break 4 is long. -/
theorem kth_break_phase (saved : Option Settings) (k : Nat) (hk : 1 ≤ k) :
    (initTimer saved).phase = Phase.focus ∧ (initTimer saved).cycle = 1 ∧
    (completeTimes (2 * k - 1) (initTimer saved)).phase
        = (if k % 4 = 0 then Phase.longBreak else Phase.shortBreak) ∧
    ((completeTimes (2 * k - 1) (initTimer saved)).phase = Phase.longBreak ↔ k % 4 = 0) ∧
    (completeTimes (2 * k) (initTimer saved)).phase = Phase.focus ∧
    (completeTimes 1 (initTimer saved)).phase = Phase.shortBreak ∧
    (completeTimes 3 (initTimer saved)).phase = Phase.shortBreak ∧
    (completeTimes 5 (initTimer saved)).phase = Phase.shortBreak ∧
    (completeTimes 7 (initTimer saved)).phase = Phase.longBreak := by
  have key : ∀ j : Nat, (completeTimes (2 * j + 1) (initTimer saved)).phase
      = (if (j + 1) % 4 = 0 then Phase.longBreak else Phase.shortBreak) := by
    intro j
    simp only [completeTimes]
    rw [completeTimes_even]
    cases saved <;> by_cases h : (j + 1) % 4 = 0 <;> simp [completeSession, initTimer, h]
  obtain ⟨j, rfl⟩ : ∃ j, k = j + 1 := ⟨k - 1, by omega⟩
  have hj : 2 * (j + 1) - 1 = 2 * j + 1 := by omega
  rw [hj, key j, completeTimes_even]
  refine ⟨by cases saved <;> rfl, by cases saved <;> rfl, rfl, ?_, by cases saved <;> rfl,
    key 0, key 1, key 2, key 3⟩
  by_cases h : (j + 1) % 4 = 0 <;> simp [h]

/-- Witness of C3 at the fourth break with the default settings. -/
theorem kth_break_phase_witness :
    (completeTimes (2 * 4 - 1) (initTimer none)).phase = Phase.longBreak :=
  (kth_break_phase none 4 (by decide)).2.2.1

/-! ## The reward ledger: experience points -/

/-- C4: `addXP amount` adds `amount` to `totalXP`; when
`currentXP + amount >= 1000` it raises `level` by exactly 1 and stores
`currentXP + amount - 1000`, otherwise it keeps `level` and stores
`currentXP + amount`; `streak` and `lastActiveDate` are kept.  From
`currentXP = 0`, `addXP 800` followed by `addXP 300` raises `level` by 1 and
leaves `currentXP = 100`. -/
theorem addXP_spec (u : User) (amount : Int) :
    (addXP amount u).totalXP = u.totalXP + amount ∧
    (u.currentXP + amount ≥ 1000 →
      (addXP amount u).level = u.level + 1 ∧
      (addXP amount u).currentXP = u.currentXP + amount - 1000) ∧
    (¬ u.currentXP + amount ≥ 1000 →
      (addXP amount u).level = u.level ∧
      (addXP amount u).currentXP = u.currentXP + amount) ∧
    (addXP amount u).streak = u.streak ∧
    (addXP amount u).lastActiveDate = u.lastActiveDate ∧
    (u.currentXP = 0 →
      (addXP 300 (addXP 800 u)).level = u.level + 1 ∧
      (addXP 300 (addXP 800 u)).currentXP = 100) := by
  refine ⟨?_, ?_, ?_, ?_, ?_, ?_⟩
  · by_cases h : u.currentXP + amount ≥ 1000 <;> simp [addXP, h]
  · intro h; simp [addXP, h]
  · intro h; simp [addXP, h]
  · by_cases h : u.currentXP + amount ≥ 1000 <;> simp [addXP, h]
  · by_cases h : u.currentXP + amount ≥ 1000 <;> simp [addXP, h]
  · intro h; simp [addXP, h]

/-- Witness of C4: the level-up branch, the plain branch and the 800 + 300
scenario, each at a concrete user. -/
theorem addXP_spec_witness :
    (addXP 300 ⟨2, 800, 1800, 3, "2024-05-01"⟩).level = 2 + 1 ∧
    (addXP 300 ⟨2, 800, 1800, 3, "2024-05-01"⟩).currentXP = 800 + 300 - 1000 ∧
    (addXP 25 ⟨2, 800, 1800, 3, "2024-05-01"⟩).currentXP = 800 + 25 ∧
    (addXP 300 (addXP 800 ⟨1, 0, 0, 0, "2024-05-01"⟩)).level = 1 + 1 ∧
    (addXP 300 (addXP 800 ⟨1, 0, 0, 0, "2024-05-01"⟩)).currentXP = 100 :=
  ⟨((addXP_spec ⟨2, 800, 1800, 3, "2024-05-01"⟩ 300).2.1 (by decide)).1,
   ((addXP_spec ⟨2, 800, 1800, 3, "2024-05-01"⟩ 300).2.1 (by decide)).2,
   ((addXP_spec ⟨2, 800, 1800, 3, "2024-05-01"⟩ 25).2.2.1 (by decide)).2,
   ((addXP_spec ⟨1, 0, 0, 0, "2024-05-01"⟩ 0).2.2.2.2.2 rfl).1,
   ((addXP_spec ⟨1, 0, 0, 0, "2024-05-01"⟩ 0).2.2.2.2.2 rfl).2⟩

/-! ## Reset and settings -/

/-- C5: `resetTimer` stops the clock and sets `time` and `totalTime` to 60 times
the stored settings value of the current phase, keeping `phase`, `cycle` and
`settings`.  When the settings were replaced while the countdown was running,
`totalTime` still holds the old duration, and `resetTimer` nevertheless loads
the duration given by the new settings. -/
theorem resetTimer_spec (s : TimerState) (newSettings : Settings) :
    (resetTimer s).isRunning = false ∧
    (resetTimer s).time = 60 * (match s.phase with
      | Phase.focus => s.settings.focusTime
      | Phase.shortBreak => s.settings.shortBreak
      | Phase.longBreak => s.settings.longBreak) ∧
    (resetTimer s).totalTime = (resetTimer s).time ∧
    (resetTimer s).phase = s.phase ∧
    (resetTimer s).cycle = s.cycle ∧
    (resetTimer s).settings = s.settings ∧
    (s.isRunning = true →
      (updateSettings newSettings s).totalTime = s.totalTime ∧
      (resetTimer (updateSettings newSettings s)).time = 60 * (match s.phase with
        | Phase.focus => newSettings.focusTime
        | Phase.shortBreak => newSettings.shortBreak
        | Phase.longBreak => newSettings.longBreak) ∧
      (resetTimer (updateSettings newSettings s)).totalTime
        = (resetTimer (updateSettings newSettings s)).time) := by
  refine ⟨rfl, ?_, rfl, rfl, rfl, rfl, ?_⟩
  · cases hp : s.phase <;> simp [resetTimer, hp, mul_comm]
  · intro hr
    cases hp : s.phase <;> simp [resetTimer, updateSettings, hr, hp, mul_comm]

/-- Witness of C5: a running focus countdown of 25 minutes whose settings are
changed to 50 minutes is reset to 3000 seconds, not to the cached 1500. -/
theorem resetTimer_spec_witness :
    (updateSettings ⟨50, 10, 30⟩ ⟨1200, 1500, true, Phase.focus, 1, defaultSettings⟩).totalTime
        = 1500 ∧
    (resetTimer
      (updateSettings ⟨50, 10, 30⟩ ⟨1200, 1500, true, Phase.focus, 1, defaultSettings⟩)).time
        = 3000 := by
  have h := (resetTimer_spec ⟨1200, 1500, true, Phase.focus, 1, defaultSettings⟩
    ⟨50, 10, 30⟩).2.2.2.2.2.2 rfl
  exact ⟨h.1, h.2.1.trans (by decide)⟩

/-- The cells after `updateSettings`: the new settings are stored; when the
clock is stopped `time` and `totalTime` become 60 times the new value for the
current phase, when the clock is running both are kept; `phase`, `cycle` and
`isRunning` are kept; and a `completeSession` of the render that follows, as
`skipPhase` calls it, loads the duration of the phase it enters from the new
settings. -/
theorem updateSettings_fields (s : TimerState) (newSettings : Settings) :
    (updateSettings newSettings s).settings = newSettings ∧
    (s.isRunning = false →
      (updateSettings newSettings s).time = 60 * (match s.phase with
        | Phase.focus => newSettings.focusTime
        | Phase.shortBreak => newSettings.shortBreak
        | Phase.longBreak => newSettings.longBreak) ∧
      (updateSettings newSettings s).totalTime = (updateSettings newSettings s).time) ∧
    (s.isRunning = true →
      (updateSettings newSettings s).time = s.time ∧
      (updateSettings newSettings s).totalTime = s.totalTime) ∧
    (updateSettings newSettings s).phase = s.phase ∧
    (updateSettings newSettings s).cycle = s.cycle ∧
    (updateSettings newSettings s).isRunning = s.isRunning ∧
    (completeSession (updateSettings newSettings s)).time
      = 60 * (match (completeSession (updateSettings newSettings s)).phase with
        | Phase.focus => newSettings.focusTime
        | Phase.shortBreak => newSettings.shortBreak
        | Phase.longBreak => newSettings.longBreak) ∧
    (completeSession (updateSettings newSettings s)).totalTime
      = (completeSession (updateSettings newSettings s)).time := by
  cases hr : s.isRunning <;> cases hp : s.phase <;>
    by_cases hc : s.cycle % 4 = 0 <;>
    simp [updateSettings, completeSession, hr, hp, hc, mul_comm]

/-! ## The countdown -/

/-- The handler `completeSession` always stops the clock. -/
theorem completeSession_isRunning (s : TimerState) : (completeSession s).isRunning = false := by
  unfold completeSession
  split <;> rfl

/-- The handler `completeSession` overwrites `time` without reading it. -/
theorem completeSession_time_irrelevant (s : TimerState) (t : Int) :
    completeSession { s with time := t } = completeSession s := by
  unfold completeSession
  rfl

/-- A callback that belongs to the current render runs the handler of the
current render. -/
theorem completeSessionFrom_self (s : TimerState) :
    completeSessionFrom s s = completeSession s := rfl

/-- A tick with more than one second left, fired by the interval of the current
render: one second less, and a new interval for the new render. -/
theorem tick_fresh_above (s : TimerState) (hr : s.isRunning = true) (h1 : 1 < s.time) :
    tick ⟨s, some s⟩
      = ⟨{ s with time := s.time - 1 }, some { s with time := s.time - 1 }⟩ := by
  have hn : ¬ s.time ≤ 1 := by omega
  have hc : s.time - 1 ≠ s.time := by omega
  have hp : s.time - 1 > 0 := by omega
  simp [tick, tickEffect, hn, hc, hp, hr]

/-- The tick at one second or less, fired by the interval of the current render:
the cells are those `completeSession` yields, and no interval is left. -/
theorem tick_fresh_crossing (s : TimerState) (hr : s.isRunning = true) (h1 : s.time ≤ 1) :
    tick ⟨s, some s⟩ = ⟨completeSession s, none⟩ := by
  simp [tick, tickEffect, h1, hr, completeSessionFrom_self, completeSession_isRunning]

/-- Without an interval a tick does not happen. -/
theorem tick_no_interval (s : TimerState) : tick ⟨s, none⟩ = ⟨s, none⟩ := rfl

/-- While the countdown has not reached zero, `n` ticks take `n` seconds off. -/
theorem ticks_lt (s : TimerState) (hr : s.isRunning = true) (n : Nat) (hn : (n : Int) < s.time) :
    ticks n ⟨s, some s⟩
      = ⟨{ s with time := s.time - n }, some { s with time := s.time - n }⟩ := by
  induction n with
  | zero => simp [ticks]
  | succ n ih =>
    have hn1 : (n : Int) < s.time := by push_cast at hn; omega
    have h1 : 1 < s.time - (n : Int) := by push_cast at hn; omega
    simp only [ticks]
    rw [ih hn1, tick_fresh_above { s with time := s.time - (n : Int) } hr h1]
    have e : s.time - (n : Int) - 1 = s.time - ((n + 1 : Nat) : Int) := by push_cast; ring
    simp only [e]

/-- From the tick that crosses zero on, the cells are those `completeSession`
yields from the cells at the start, and no interval is left. -/
theorem ticks_ge (s : TimerState) (hr : s.isRunning = true) (ht : 0 < s.time) (n : Nat)
    (hn : s.time ≤ (n : Int)) :
    ticks n ⟨s, some s⟩ = ⟨completeSession s, none⟩ := by
  induction n with
  | zero => exact absurd hn (by simpa using ht)
  | succ n ih =>
    simp only [ticks]
    by_cases hle : s.time ≤ (n : Int)
    · rw [ih hle, tick_no_interval]
    · have hlt : (n : Int) < s.time := by omega
      have h1 : s.time - (n : Int) ≤ 1 := by push_cast at hn; omega
      rw [ticks_lt s hr n hlt, tick_fresh_crossing { s with time := s.time - (n : Int) } hr h1,
        completeSession_time_irrelevant]

/-- C7 as stated fails: with three seconds left on a running focus countdown of
the default settings, the third tick takes `time` from 1 up to 300, the length
of the short break that starts, where `max (3 - 3) 0` is 0. -/
theorem third_tick_loads_break :
    (ticks 2 ⟨⟨3, 1500, true, Phase.focus, 1, defaultSettings⟩,
        some ⟨3, 1500, true, Phase.focus, 1, defaultSettings⟩⟩).cells.time = 1 ∧
    (ticks 3 ⟨⟨3, 1500, true, Phase.focus, 1, defaultSettings⟩,
        some ⟨3, 1500, true, Phase.focus, 1, defaultSettings⟩⟩).cells.time = 300 ∧
    (ticks 3 ⟨⟨3, 1500, true, Phase.focus, 1, defaultSettings⟩,
        some ⟨3, 1500, true, Phase.focus, 1, defaultSettings⟩⟩).cells.time
      ≠ max ((3 : Int) - (3 : Nat)) 0 ∧
    (ticks 2 ⟨⟨3, 1500, true, Phase.focus, 1, defaultSettings⟩,
        some ⟨3, 1500, true, Phase.focus, 1, defaultSettings⟩⟩).cells.time
      < (ticks 3 ⟨⟨3, 1500, true, Phase.focus, 1, defaultSettings⟩,
        some ⟨3, 1500, true, Phase.focus, 1, defaultSettings⟩⟩).cells.time := by
  decide

/-- C7 as amended: from a running state with `time = t > 0` whose interval
belongs to the current render, `n < t` ticks leave `time = t - n` and every
other cell as it was, each of these ticks lowering `time` by exactly 1 and
keeping it positive; from the `t`-th tick on the clock is stopped, the phase
completion has been performed (`longBreak` or `shortBreak` by `cycle % 4` and
`cycle + 1` after a focus phase, `focus` with the same cycle after a break),
`time` and `totalTime` hold 60 times the configured minutes of the new phase,
and no interval is left, so further ticks change nothing. -/
theorem ticks_countdown (s : TimerState) (hr : s.isRunning = true) (ht : 0 < s.time)
    (n : Nat) :
    ((n : Int) < s.time →
      (ticks n ⟨s, some s⟩).cells = { s with time := s.time - n }) ∧
    ((n : Int) + 1 < s.time →
      (ticks (n + 1) ⟨s, some s⟩).cells.time = (ticks n ⟨s, some s⟩).cells.time - 1 ∧
      0 < (ticks (n + 1) ⟨s, some s⟩).cells.time) ∧
    (s.time ≤ (n : Int) →
      (ticks n ⟨s, some s⟩).cells.isRunning = false ∧
      (ticks n ⟨s, some s⟩).cells.phase
        = (if s.phase = Phase.focus then
            (if s.cycle % 4 = 0 then Phase.longBreak else Phase.shortBreak)
          else Phase.focus) ∧
      (ticks n ⟨s, some s⟩).cells.cycle
        = (if s.phase = Phase.focus then s.cycle + 1 else s.cycle) ∧
      (ticks n ⟨s, some s⟩).cells.time
        = 60 * (match (ticks n ⟨s, some s⟩).cells.phase with
          | Phase.focus => s.settings.focusTime
          | Phase.shortBreak => s.settings.shortBreak
          | Phase.longBreak => s.settings.longBreak) ∧
      (ticks n ⟨s, some s⟩).cells.totalTime = (ticks n ⟨s, some s⟩).cells.time ∧
      (ticks n ⟨s, some s⟩).cells.settings = s.settings ∧
      (ticks n ⟨s, some s⟩).interval = none ∧
      ticks (n + 1) ⟨s, some s⟩ = ticks n ⟨s, some s⟩) := by
  refine ⟨?_, ?_, ?_⟩
  · intro hn
    rw [ticks_lt s hr n hn]
  · intro hn
    have hn0 : (n : Int) < s.time := by omega
    have hn1 : ((n + 1 : Nat) : Int) < s.time := by push_cast; omega
    rw [ticks_lt s hr (n + 1) hn1, ticks_lt s hr n hn0]
    simp only
    push_cast
    constructor <;> omega
  · intro hn
    have hn1 : s.time ≤ ((n + 1 : Nat) : Int) := by push_cast; omega
    rw [ticks_ge s hr ht (n + 1) hn1, ticks_ge s hr ht n hn]
    cases hp : s.phase <;> by_cases hc : s.cycle % 4 = 0 <;>
      simp [completeSession, hp, hc, mul_comm]

/-- Witness of C7 as amended: three seconds left on a running focus countdown;
after two ticks one second is left, after three the short break is loaded. -/
theorem ticks_countdown_witness :
    (ticks 2 ⟨⟨3, 1500, true, Phase.focus, 1, defaultSettings⟩,
        some ⟨3, 1500, true, Phase.focus, 1, defaultSettings⟩⟩).cells
      = ⟨1, 1500, true, Phase.focus, 1, defaultSettings⟩ ∧
    (ticks 3 ⟨⟨3, 1500, true, Phase.focus, 1, defaultSettings⟩,
        some ⟨3, 1500, true, Phase.focus, 1, defaultSettings⟩⟩).cells.isRunning = false ∧
    (ticks 3 ⟨⟨3, 1500, true, Phase.focus, 1, defaultSettings⟩,
        some ⟨3, 1500, true, Phase.focus, 1, defaultSettings⟩⟩).cells.phase
      = Phase.shortBreak :=
  ⟨((ticks_countdown ⟨3, 1500, true, Phase.focus, 1, defaultSettings⟩ rfl (by decide) 2).1
      (by decide)).trans (by decide),
   ((ticks_countdown ⟨3, 1500, true, Phase.focus, 1, defaultSettings⟩ rfl (by decide) 3).2.2
      (by decide)).1,
   ((ticks_countdown ⟨3, 1500, true, Phase.focus, 1, defaultSettings⟩ rfl (by decide) 3).2.2
      (by decide)).2.1⟩

/-! ## Settings changed in the last second -/

/-- C6, evaluated on the code: on a first visit the focus countdown runs for
1499 ticks, the short break is then set to 10 minutes, and the next tick
completes the phase.  The settings cell holds the new value, but the break is
loaded with 300 seconds, the old 5 minutes: the pending interval still calls
the `completeSession` of the render before the change.  `skipPhase` at the same
moment loads the new 600 seconds. -/
theorem updateSettings_last_second :
    ((ticks 1499 ((initHook none).handle startTimer)).handle
        (updateSettings ⟨25, 10, 15⟩)).cells
      = ⟨1, 1500, true, Phase.focus, 1, ⟨25, 10, 15⟩⟩ ∧
    (tick ((ticks 1499 ((initHook none).handle startTimer)).handle
        (updateSettings ⟨25, 10, 15⟩))).cells
      = ⟨300, 300, false, Phase.shortBreak, 2, ⟨25, 10, 15⟩⟩ ∧
    (((ticks 1499 ((initHook none).handle startTimer)).handle
        (updateSettings ⟨25, 10, 15⟩)).handle skipPhase).cells
      = ⟨600, 600, false, Phase.shortBreak, 2, ⟨25, 10, 15⟩⟩ := by
  have h0 : (initHook none).handle startTimer
      = ⟨⟨1500, 1500, true, Phase.focus, 1, defaultSettings⟩,
         some ⟨1500, 1500, true, Phase.focus, 1, defaultSettings⟩⟩ := by decide
  rw [h0, ticks_lt _ rfl 1499 (by decide)]
  decide

/-! ## The reward ledger: daily tasks -/

/-- C8: one call of `updateDailyTasks` keeps the number and order of groups;
a group of another date is returned unchanged; in a group dated `today` the
number and order of tasks is kept, every task of type focus that is not
completed gets `current + 1` and is completed exactly when
`current + 1 >= target`, and every other task is returned unchanged. -/
theorem updateDailyTasks_spec (today : String) (prev : List TaskGroup) :
    (updateDailyTasks today prev).1.length = prev.length ∧
    ∀ (i : Nat) (g : TaskGroup), prev[i]? = some g →
      ∃ g', (updateDailyTasks today prev).1[i]? = some g' ∧
        g'.date = g.date ∧
        (g.date ≠ today → g' = g) ∧
        (g.date = today →
          g'.tasks.length = g.tasks.length ∧
          ∀ (j : Nat) (t : Task), g.tasks[j]? = some t →
            ∃ t', g'.tasks[j]? = some t' ∧
              (t.type = "focus" ∧ t.completed = false →
                t' = { t with current := t.current + 1,
                              completed := decide (t.current + 1 ≥ t.target) }) ∧
              (¬ (t.type = "focus" ∧ t.completed = false) → t' = t)) := by
  refine ⟨by simp [updateDailyTasks], ?_⟩
  intro i g hg
  refine ⟨(updateGroup today g).1, by simp [updateDailyTasks, List.getElem?_map, hg], ?_, ?_, ?_⟩
  · unfold updateGroup
    split <;> rfl
  · intro hd
    simp [updateGroup, hd]
  · intro hd
    refine ⟨by simp [updateGroup, hd], ?_⟩
    intro j t ht
    refine ⟨(updateTask t).1, by simp [updateGroup, hd, List.getElem?_map, ht], ?_, ?_⟩
    · intro hf
      unfold updateTask
      rw [if_pos hf]
      by_cases hc : t.current + 1 ≥ t.target <;> simp [hc, hf.2]
    · intro hf
      unfold updateTask
      rw [if_neg hf]

/-- Witness of C8: two groups, the second dated today; its focus task advances
from 0 to 1 and stays incomplete. -/
theorem updateDailyTasks_spec_witness :
    ∃ g', (updateDailyTasks "2024-05-02"
        [⟨"2024-05-01", defaultTasks⟩, ⟨"2024-05-02", defaultTasks⟩]).1[1]? = some g' ∧
      ∃ t', g'.tasks[0]? = some t' ∧ t'.current = 1 ∧ t'.completed = false := by
  obtain ⟨g', h1, _, _, h4⟩ := (updateDailyTasks_spec "2024-05-02"
    [⟨"2024-05-01", defaultTasks⟩, ⟨"2024-05-02", defaultTasks⟩]).2 1
    ⟨"2024-05-02", defaultTasks⟩ rfl
  obtain ⟨t', h6, h7, _⟩ := (h4 rfl).2 0
    ⟨"focus1", "focus", "Complete 3 Focus Sessions", "Stay focused for 3 complete sessions",
      3, 0, false, 50⟩ rfl
  refine ⟨g', h1, t', h6, ?_⟩
  rw [h7 ⟨rfl, rfl⟩]
  exact ⟨by decide, by decide⟩

/-- A completed task is returned as it is, and nothing is awarded for it. -/
theorem updateTask_completed (t : Task) (h : t.completed = true) : updateTask t = (t, []) := by
  simp [updateTask, h]

/-- The callback awards the reward of a task exactly on the call that turns
`completed` from false to true. -/
theorem updateTask_award (t : Task) :
    (updateTask t).2
      = if t.completed = false ∧ (updateTask t).1.completed = true then [t.xpReward] else [] := by
  by_cases hf : t.type = "focus" ∧ t.completed = false
  · by_cases hc : t.current + 1 ≥ t.target <;> simp [updateTask, hf, hc]
  · have hu : updateTask t = (t, []) := by simp [updateTask, hf]
    rw [hu]
    by_cases hc : t.completed = false <;> simp [hc]

/-- One call of `updateDailyTasks` acts on the group at each position. -/
theorem updateDailyTasks_getElem? (today : String) (prev : List TaskGroup) (i : Nat)
    (g : TaskGroup) (hg : prev[i]? = some g) :
    (updateDailyTasks today prev).1[i]? = some (updateGroup today g).1 := by
  simp [updateDailyTasks, List.getElem?_map, hg]

/-- A completed task keeps its place and its fields under `updateGroup`. -/
theorem updateGroup_completed (today : String) (g : TaskGroup) (j : Nat) (t : Task)
    (ht : g.tasks[j]? = some t) (hc : t.completed = true) :
    (updateGroup today g).1.date = g.date ∧ (updateGroup today g).1.tasks[j]? = some t := by
  by_cases hd : g.date = today
  · simp [updateGroup, hd, List.getElem?_map, ht, updateTask_completed t hc]
  · simp [updateGroup, hd, ht]

/-- A completed task keeps its place and its fields over any sequence of calls
of `updateDailyTasks`. -/
theorem recordDaily_completed (days : List String) (prev : List TaskGroup) (i j : Nat)
    (g : TaskGroup) (t : Task) (hg : prev[i]? = some g) (ht : g.tasks[j]? = some t)
    (hc : t.completed = true) :
    ∃ g', (recordDaily days prev).1[i]? = some g' ∧ g'.date = g.date ∧
      g'.tasks[j]? = some t := by
  induction days generalizing prev g with
  | nil => exact ⟨g, hg, rfl, ht⟩
  | cons today days ih =>
    obtain ⟨hd, hj⟩ := updateGroup_completed today g j t ht hc
    obtain ⟨g', h1, h2, h3⟩ := ih (updateDailyTasks today prev).1 (updateGroup today g).1
      (updateDailyTasks_getElem? today prev i g hg) hj
    exact ⟨g', h1, h2.trans hd, h3⟩

/-- Over a list of tasks, the callback awards the rewards of the tasks that it
turns from not completed to completed, in list order. -/
theorem tasks_awards (ts : List Task) :
    ((ts.map updateTask).map Prod.snd).flatten
      = ((ts.zip ((ts.map updateTask).map Prod.fst)).filter
          (fun q => !q.1.completed && q.2.completed)).map (fun q => q.1.xpReward) := by
  induction ts with
  | nil => rfl
  | cons t rest ih =>
    simp only [List.map_cons, List.flatten_cons, List.zip_cons_cons, List.filter_cons]
    rw [updateTask_award t, ih]
    by_cases hflip : t.completed = false ∧ (updateTask t).1.completed = true
    · simp [hflip.1, hflip.2]
    · rw [if_neg hflip]
      have hb : (!t.completed && (updateTask t).1.completed) = false := by
        cases h1 : t.completed <;> cases h2 : (updateTask t).1.completed <;> simp_all
      simp [hb]

/-- A list of tasks paired with itself has no task that turns completed. -/
theorem tasks_no_flip (ts : List Task) :
    (ts.zip ts).filter (fun q => !q.1.completed && q.2.completed) = [] := by
  induction ts with
  | nil => rfl
  | cons t rest ih =>
    simp only [List.zip_cons_cons, List.filter_cons]
    cases h : t.completed <;> simp [ih]

/-- For one group, `updateGroup` awards the rewards of the tasks that it turns
from not completed to completed, in list order. -/
theorem updateGroup_awards (today : String) (g : TaskGroup) :
    (updateGroup today g).2
      = ((g.tasks.zip (updateGroup today g).1.tasks).filter
          (fun q => !q.1.completed && q.2.completed)).map (fun q => q.1.xpReward) := by
  by_cases hd : g.date = today
  · simp only [updateGroup, hd, if_true]
    exact tasks_awards g.tasks
  · simp only [updateGroup, hd, if_false]
    rw [tasks_no_flip]
    rfl

/-- One call of `updateDailyTasks` awards the rewards of the tasks that it turns
from not completed to completed, group by group and in list order. -/
theorem updateDailyTasks_awards (today : String) (prev : List TaskGroup) :
    (updateDailyTasks today prev).2
      = ((prev.zip (updateDailyTasks today prev).1).map (fun p =>
          ((p.1.tasks.zip p.2.tasks).filter
            (fun q => !q.1.completed && q.2.completed)).map (fun q => q.1.xpReward))).flatten := by
  simp only [updateDailyTasks]
  induction prev with
  | nil => rfl
  | cons g rest ih =>
    simp only [List.map_cons, List.flatten_cons, List.zip_cons_cons]
    rw [ih, updateGroup_awards today g]

/-- The callback awards one reward exactly when the number of completed tasks
grows by one. -/
theorem updateTask_count (t : Task) :
    (updateTask t).2.length + (if t.completed = true then 1 else 0)
      = (if (updateTask t).1.completed = true then 1 else 0) := by
  by_cases hf : t.type = "focus" ∧ t.completed = false
  · by_cases hc : t.current + 1 ≥ t.target <;> simp [updateTask, hf, hc]
  · have hu : updateTask t = (t, []) := by simp [updateTask, hf]
    rw [hu]
    simp

/-- Over a list of tasks, the number of awards is the growth of the number of
completed tasks. -/
theorem tasks_count (ts : List Task) :
    ((ts.map updateTask).map Prod.snd).flatten.length + ts.countP (fun t => t.completed)
      = ((ts.map updateTask).map Prod.fst).countP (fun t => t.completed) := by
  induction ts with
  | nil => rfl
  | cons t rest ih =>
    have h := updateTask_count t
    simp only [List.map_cons, List.flatten_cons, List.length_append, List.countP_cons]
    omega

/-- For one group, the number of awards is the growth of the number of
completed tasks. -/
theorem updateGroup_count (today : String) (g : TaskGroup) :
    (updateGroup today g).2.length + g.tasks.countP (fun t => t.completed)
      = (updateGroup today g).1.tasks.countP (fun t => t.completed) := by
  by_cases hd : g.date = today
  · simp only [updateGroup, hd, if_true]
    exact tasks_count g.tasks
  · simp [updateGroup, hd]

/-- For one call of `updateDailyTasks`, the number of awards is the growth of
the number of completed tasks in the stored list. -/
theorem updateDailyTasks_count (today : String) (prev : List TaskGroup) :
    (updateDailyTasks today prev).2.length
        + (prev.map (fun g => g.tasks.countP (fun t => t.completed))).sum
      = ((updateDailyTasks today prev).1.map
          (fun g => g.tasks.countP (fun t => t.completed))).sum := by
  simp only [updateDailyTasks]
  induction prev with
  | nil => rfl
  | cons g rest ih =>
    have h := updateGroup_count today g
    simp only [List.map_cons, List.flatten_cons, List.length_append, List.sum_cons] at ih ⊢
    omega

/-- Over any sequence of calls of `updateDailyTasks`, the number of awards is
the growth of the number of completed tasks in the stored list. -/
theorem recordDaily_count (days : List String) (prev : List TaskGroup) :
    (recordDaily days prev).2.length
        + (prev.map (fun g => g.tasks.countP (fun t => t.completed))).sum
      = ((recordDaily days prev).1.map
          (fun g => g.tasks.countP (fun t => t.completed))).sum := by
  induction days generalizing prev with
  | nil => simp [recordDaily]
  | cons today days ih =>
    have h1 := updateDailyTasks_count today prev
    have h2 := ih (updateDailyTasks today prev).1
    simp only [recordDaily, List.length_append]
    omega

/-- When every focus task of a list is completed, the callback returns the list
as it is and awards nothing. -/
theorem tasks_all_completed (ts : List Task)
    (h : ∀ t ∈ ts, t.type = "focus" → t.completed = true) :
    (ts.map updateTask).map Prod.fst = ts ∧ ((ts.map updateTask).map Prod.snd).flatten = [] := by
  induction ts with
  | nil => exact ⟨rfl, rfl⟩
  | cons t rest ih =>
    have hrest := ih (fun u hu => h u (List.mem_cons_of_mem t hu))
    have ht : ¬ (t.type = "focus" ∧ t.completed = false) := by
      intro hf
      have := h t (List.mem_cons_self t rest) hf.1
      rw [hf.2] at this
      exact Bool.noConfusion this
    have hu : updateTask t = (t, []) := by simp [updateTask, ht]
    simp only [List.map_cons, List.flatten_cons, hu, hrest.1, hrest.2, List.append_nil, and_self]

/-- When every focus task of the groups dated `today` is completed,
`updateDailyTasks` returns the stored list as it is and awards nothing. -/
theorem updateDailyTasks_all_completed (today : String) (prev : List TaskGroup)
    (h : ∀ g ∈ prev, g.date = today → ∀ t ∈ g.tasks, t.type = "focus" → t.completed = true) :
    updateDailyTasks today prev = (prev, []) := by
  simp only [updateDailyTasks]
  induction prev with
  | nil => rfl
  | cons g rest ih =>
    have hrest := ih (fun g' hg' => h g' (List.mem_cons_of_mem g hg'))
    have hg : updateGroup today g = (g, []) := by
      by_cases hd : g.date = today
      · have ht := tasks_all_completed g.tasks (h g (List.mem_cons_self g rest) hd)
        simp only [updateGroup, hd, if_true, ht.1, ht.2]
        subst hd
        rfl
      · simp [updateGroup, hd]
    simp only [Prod.mk.injEq] at hrest
    simp only [List.map_cons, List.flatten_cons, hg, hrest.1, hrest.2, List.append_nil]

/-- C9: task completion is idempotent, on the handler.  (1) One call of
`updateDailyTasks` awards exactly the rewards of the tasks whose `completed`
it turns from false to true, in list order, so nothing for a task that was
already completed.  (2) Over any sequence of recording dates a completed task
keeps its place with all its fields.  (3) Over any such sequence the number of
awards equals the growth of the number of completed tasks, so no task is paid
twice.  (4) The handler applies to `user` the rewards of (1) and nothing else.
(5) When every focus task of today is completed, the handler changes nothing at
all, and a recorded focus completion only adds the fixed 25 points. -/
theorem updateDailyTasks_awards_once (today : String) (prev : List TaskGroup)
    (days : List String) (G : Gamification) :
    (updateDailyTasks today prev).2
      = ((prev.zip (updateDailyTasks today prev).1).map (fun p =>
          ((p.1.tasks.zip p.2.tasks).filter
            (fun q => !q.1.completed && q.2.completed)).map (fun q => q.1.xpReward))).flatten ∧
    (∀ (i j : Nat) (g : TaskGroup) (t : Task), prev[i]? = some g → g.tasks[j]? = some t →
      t.completed = true →
        ∃ g', (recordDaily days prev).1[i]? = some g' ∧ g'.tasks[j]? = some t) ∧
    (recordDaily days prev).2.length
        + (prev.map (fun g => g.tasks.countP (fun t => t.completed))).sum
      = ((recordDaily days prev).1.map
          (fun g => g.tasks.countP (fun t => t.completed))).sum ∧
    (Gamification.updateDailyTasks today G).user
      = (((G.dailyTasks.zip (Gamification.updateDailyTasks today G).dailyTasks).map (fun p =>
          ((p.1.tasks.zip p.2.tasks).filter
            (fun q => !q.1.completed && q.2.completed)).map (fun q => q.1.xpReward))).flatten).foldl
          (fun u x => addXP x u) G.user ∧
    ((∀ g ∈ G.dailyTasks, g.date = today → ∀ t ∈ g.tasks,
        t.type = "focus" → t.completed = true) →
      Gamification.updateDailyTasks today G = G ∧
      Gamification.completeSession today Phase.focus G = { G with user := addXP 25 G.user }) := by
  refine ⟨updateDailyTasks_awards today prev, ?_, recordDaily_count days prev, ?_, ?_⟩
  · intro i j g t hg ht hc
    obtain ⟨g', h1, _, h3⟩ := recordDaily_completed days prev i j g t hg ht hc
    exact ⟨g', h1, h3⟩
  · simp only [Gamification.updateDailyTasks]
    rw [← updateDailyTasks_awards today G.dailyTasks]
  · intro h
    have h1 : Gamification.updateDailyTasks today G = G := by
      simp only [Gamification.updateDailyTasks, updateDailyTasks_all_completed today _ h,
        List.foldl_nil]
    refine ⟨h1, ?_⟩
    simp only [Gamification.completeSession, if_true, Gamification.updateDailyTasks,
      updateDailyTasks_all_completed today _ h, List.foldl_nil]

/-- Witness of C9: a user with one completed focus task today records another
focus completion; the task list is unchanged and only the 25 points arrive. -/
theorem updateDailyTasks_awards_once_witness :
    Gamification.updateDailyTasks "2024-05-02"
        ⟨⟨1, 75, 75, 0, "2024-05-02"⟩,
          [⟨"2024-05-02", [⟨"focus1", "focus", "t", "d", 3, 3, true, 50⟩]⟩]⟩
      = ⟨⟨1, 75, 75, 0, "2024-05-02"⟩,
          [⟨"2024-05-02", [⟨"focus1", "focus", "t", "d", 3, 3, true, 50⟩]⟩]⟩ ∧
    (Gamification.completeSession "2024-05-02" Phase.focus
        ⟨⟨1, 75, 75, 0, "2024-05-02"⟩,
          [⟨"2024-05-02", [⟨"focus1", "focus", "t", "d", 3, 3, true, 50⟩]⟩]⟩).user.currentXP
      = 100 ∧
    ∃ g', (recordDaily ["2024-05-02", "2024-05-02"]
        [⟨"2024-05-02", [⟨"focus1", "focus", "t", "d", 3, 3, true, 50⟩]⟩]).1[0]? = some g' ∧
      g'.tasks[0]? = some ⟨"focus1", "focus", "t", "d", 3, 3, true, 50⟩ :=
  ⟨((updateDailyTasks_awards_once "2024-05-02" [] []
      ⟨⟨1, 75, 75, 0, "2024-05-02"⟩,
        [⟨"2024-05-02", [⟨"focus1", "focus", "t", "d", 3, 3, true, 50⟩]⟩]⟩).2.2.2.2
      (by decide)).1,
   (congrArg (fun G => G.user.currentXP)
     ((updateDailyTasks_awards_once "2024-05-02" [] []
      ⟨⟨1, 75, 75, 0, "2024-05-02"⟩,
        [⟨"2024-05-02", [⟨"focus1", "focus", "t", "d", 3, 3, true, 50⟩]⟩]⟩).2.2.2.2
      (by decide)).2).trans (by decide),
   (updateDailyTasks_awards_once "2024-05-02"
      [⟨"2024-05-02", [⟨"focus1", "focus", "t", "d", 3, 3, true, 50⟩]⟩]
      ["2024-05-02", "2024-05-02"] ⟨⟨1, 75, 75, 0, "2024-05-02"⟩, []⟩).2.1 0 0
      ⟨"2024-05-02", [⟨"focus1", "focus", "t", "d", 3, 3, true, 50⟩]⟩
      ⟨"focus1", "focus", "t", "d", 3, 3, true, 50⟩ rfl rfl rfl⟩

/-! ## The countdown and the reward ledger together -/

/-- The timer of the page evolves under ticks as the timer alone does. -/
theorem appTicks_timer (today : String) (n : Nat) (a : App) :
    (App.ticks today n a).timer = ticks n a.timer := by
  induction n with
  | zero => rfl
  | succ n ih => simp only [App.ticks, App.tick, ticks, ih]

/-- While the countdown has not reached zero the ledger is not touched. -/
theorem appTicks_game_lt (today : String) (a : App) (s : TimerState)
    (ha : a.timer = ⟨s, some s⟩) (hr : s.isRunning = true) (n : Nat)
    (hn : (n : Int) < s.time) :
    (App.ticks today n a).game = a.game := by
  induction n with
  | zero => rfl
  | succ n ih =>
    have hn1 : (n : Int) < s.time := by push_cast at hn; omega
    have e : tick (ticks n a.timer) = ticks (n + 1) a.timer := rfl
    simp only [App.ticks, App.tick]
    rw [ih hn1, appTicks_timer, e, ha, ticks_lt s hr (n + 1) hn, ticks_lt s hr n hn1]
    simp [completionEffect, hr]

/-- The page after the tick that completes a running countdown of `n + 1`
seconds whose interval belongs to the current render: the timer cells are
those `completeSession` yields, and the completion effect has called
`handleSessionComplete` only if the duration just loaded is 0. -/
theorem appTicks_complete (today : String) (a : App) (s : TimerState)
    (ha : a.timer = ⟨s, some s⟩) (hr : s.isRunning = true) (n : Nat)
    (hn : s.time = (n : Int) + 1) :
    App.ticks today (n + 1) a
      = { timer := ⟨completeSession s, none⟩,
          game := if (completeSession s).time = 0 then
              handleSessionComplete today (completeSession s) a.game
            else a.game } := by
  have hlt : (n : Int) < s.time := by omega
  have hge : s.time ≤ ((n + 1 : Nat) : Int) := by push_cast; omega
  have hpos : 0 < s.time := by omega
  have e : tick (ticks n a.timer) = ticks (n + 1) a.timer := rfl
  simp only [App.ticks, App.tick]
  rw [appTicks_game_lt today a s ha hr n hlt, appTicks_timer, e, ha,
    ticks_ge s hr hpos (n + 1) hge, ticks_lt s hr n hlt]
  simp [completionEffect, hr, completeSession_isRunning]

/-- A countdown that completes a phase leaves the ledger as it was, whichever
phase it completes, unless the duration of the phase it enters is 0. -/
theorem countdown_awards_nothing (today : String) (a : App) (s : TimerState)
    (ha : a.timer = ⟨s, some s⟩) (hr : s.isRunning = true) (n : Nat)
    (hn : s.time = (n : Int) + 1) (h0 : (completeSession s).time ≠ 0) :
    (App.ticks today (n + 1) a).game = a.game := by
  rw [appTicks_complete today a s ha hr n hn, if_neg h0]

/-- The page just after `startTimer` on a first visit, and the page after the
1500 ticks that complete its focus countdown. -/
theorem freshRun_states (today : String) :
    freshRun today 0
      = { timer := ⟨⟨1500, 1500, true, Phase.focus, 1, defaultSettings⟩,
            some ⟨1500, 1500, true, Phase.focus, 1, defaultSettings⟩⟩,
          game := ⟨defaultUser today, [{ date := today, tasks := defaultTasks }]⟩ } ∧
    freshRun today 1500
      = { timer := ⟨⟨300, 300, false, Phase.shortBreak, 2, defaultSettings⟩, none⟩,
          game := ⟨defaultUser today, [{ date := today, tasks := defaultTasks }]⟩ } := by
  refine ⟨rfl, ?_⟩
  unfold freshRun
  rw [appTicks_complete today _ ⟨1500, 1500, true, Phase.focus, 1, defaultSettings⟩ rfl rfl
    1499 rfl]
  rfl

/-- C10, evaluated on the code: on a first visit with the default 25 minutes,
`startTimer` followed by 1500 ticks ends in `shortBreak` with cycle 2 and the
clock stopped, with the 300 seconds of the break loaded; the ledger is
untouched: `currentXP` and `totalXP` are 0 and the daily tasks are the
unchanged defaults (the focus task shows `current = 0`).  The completion effect
waits for `time === 0` on a stopped clock, and the completed countdown never
shows it that. -/
theorem freshRun_1500 (today : String) :
    (freshRun today 1500).timer.cells.phase = Phase.shortBreak ∧
    (freshRun today 1500).timer.cells.cycle = 2 ∧
    (freshRun today 1500).timer.cells.time = 300 ∧
    (freshRun today 1500).timer.cells.totalTime = 300 ∧
    (freshRun today 1500).timer.cells.isRunning = false ∧
    (freshRun today 1500).game.user.currentXP = 0 ∧
    (freshRun today 1500).game.user.totalXP = 0 ∧
    (freshRun today 1500).game.user.level = 1 ∧
    (freshRun today 1500).game.dailyTasks = [{ date := today, tasks := defaultTasks }] ∧
    ((freshRun today 1500).game.dailyTasks.map
        (fun g => g.tasks.map (fun t => (t.type, t.current))))
      = [[("focus", 0), ("streak", 0), ("time", 0)]] := by
  have h : freshRun today 1500
      = { timer := ⟨⟨300, 300, false, Phase.shortBreak, 2, defaultSettings⟩, none⟩,
          game := ⟨defaultUser today, [{ date := today, tasks := defaultTasks }]⟩ } := by
    unfold freshRun
    rw [appTicks_complete today _ ⟨1500, 1500, true, Phase.focus, 1, defaultSettings⟩ rfl rfl
      1499 rfl]
    rfl
  rw [h]
  refine ⟨rfl, rfl, rfl, rfl, rfl, rfl, rfl, rfl, rfl, rfl⟩

/-- The break that follows the first focus session of a first visit: after
`resetTimer`, `startTimer` and 300 ticks the short break has counted down, the
phase is `focus` again with the 1500 seconds of the next session loaded, and
the ledger is still untouched. -/
theorem freshBreakRun_300 (today : String) :
    (freshBreakRun today 300).timer.cells.phase = Phase.focus ∧
    (freshBreakRun today 300).timer.cells.cycle = 2 ∧
    (freshBreakRun today 300).timer.cells.time = 1500 ∧
    (freshBreakRun today 300).game.user.currentXP = 0 ∧
    ((freshBreakRun today 300).game.dailyTasks.map
        (fun g => g.tasks.map (fun t => (t.type, t.current))))
      = [[("focus", 0), ("streak", 0), ("time", 0)]] := by
  have h : freshBreakRun today 300
      = { timer := ⟨⟨1500, 1500, false, Phase.focus, 2, defaultSettings⟩, none⟩,
          game := ⟨defaultUser today, [{ date := today, tasks := defaultTasks }]⟩ } := by
    unfold freshBreakRun
    rw [(freshRun_states today).2,
      appTicks_complete today _ ⟨300, 300, true, Phase.shortBreak, 2, defaultSettings⟩ rfl rfl
        299 rfl]
    rfl
  rw [h]
  refine ⟨rfl, rfl, rfl, rfl, rfl⟩

/-! ## Skipping a phase -/

/-- On the timer, `skipPhase` is `completeSession` whatever the remaining time:
the cells after it are those `completeSession` yields, `time` and `totalTime`
hold the same freshly loaded duration, the clock is stopped, and the ledger is
left as it was unless that duration is 0. -/
theorem skipPhase_effect (today : String) (a : App) :
    (App.step today skipPhase a).timer.cells = completeSession a.timer.cells ∧
    (∀ t : Int, skipPhase { a.timer.cells with time := t } = skipPhase a.timer.cells) ∧
    (skipPhase a.timer.cells).time = (skipPhase a.timer.cells).totalTime ∧
    (skipPhase a.timer.cells).isRunning = false ∧
    ((skipPhase a.timer.cells).time ≠ 0 → (App.step today skipPhase a).game = a.game) := by
  refine ⟨rfl, fun t => completeSession_time_irrelevant a.timer.cells t, ?_,
    completeSession_isRunning a.timer.cells, ?_⟩
  · unfold skipPhase completeSession
    split <;> rfl
  · intro h0
    have h0' : ¬ ((skipPhase a.timer.cells).isRunning = false ∧
        (skipPhase a.timer.cells).time = 0) := fun h => h0 h.2
    simp only [App.step, completionEffect, TimerHook.handle, tickEffect, if_neg h0', ite_self]

/-- For a running countdown whose interval belongs to the current render,
`skipPhase` leaves the page exactly as the ticks that complete the countdown
would leave it: the same timer cells, no interval, the same ledger. -/
theorem skip_eq_countdown (today : String) (a : App) (s : TimerState)
    (ha : a.timer = ⟨s, some s⟩) (hr : s.isRunning = true) (n : Nat)
    (hn : s.time = (n : Int) + 1) :
    App.step today skipPhase a = App.ticks today (n + 1) a := by
  rw [appTicks_complete today a s ha hr n hn]
  simp [App.step, TimerHook.handle, tickEffect, completionEffect, skipPhase, ha, hr,
    completeSession_isRunning]

/-- C11, evaluated on the code: on a first visit, right after `startTimer`,
`skipPhase` completes the focus phase at once and leaves the timer cells that
the 1500 ticks of the countdown leave (`shortBreak`, cycle 2, 300 seconds
loaded, clock stopped); but the skipped focus phase earns nothing: `currentXP`
stays 0 and the daily tasks are the unchanged defaults, where the claim
promises 25 XP and task progress. -/
theorem skipPhase_awards_nothing (today : String) :
    (freshRun today 0).timer.cells.phase = Phase.focus ∧
    (App.step today skipPhase (freshRun today 0)).timer.cells
      = ⟨300, 300, false, Phase.shortBreak, 2, defaultSettings⟩ ∧
    App.step today skipPhase (freshRun today 0) = freshRun today 1500 ∧
    (App.step today skipPhase (freshRun today 0)).game.user.currentXP = 0 ∧
    (App.step today skipPhase (freshRun today 0)).game.dailyTasks
      = [{ date := today, tasks := defaultTasks }] ∧
    ((App.step today skipPhase (freshRun today 0)).game.dailyTasks.map
        (fun g => g.tasks.map (fun t => (t.type, t.current))))
      = [[("focus", 0), ("streak", 0), ("time", 0)]] := by
  rw [(freshRun_states today).2, (freshRun_states today).1]
  refine ⟨rfl, rfl, rfl, rfl, rfl, rfl⟩

/-! ## Invariants of the reward ledger -/

/-- C12 as stated fails: from level 1 with `currentXP = 500`, the non-negative
amount 1500 leaves `currentXP = 1000`, outside `0 <= currentXP < 1000`. -/
theorem addXP_range_fails :
    ¬ ∀ (u : User) (amount : Int), 1 ≤ u.level → 0 ≤ u.currentXP → u.currentXP < 1000 →
      0 ≤ amount →
      1 ≤ (addXP amount u).level ∧ 0 ≤ (addXP amount u).currentXP ∧
      (addXP amount u).currentXP < 1000 ∧ u.totalXP ≤ (addXP amount u).totalXP := by
  intro h
  have h1 := h ⟨1, 500, 500, 0, "2024-05-01"⟩ 1500 (by decide) (by decide) (by decide)
    (by decide)
  exact absurd h1.2.2.1 (by decide)

/-- C12 as amended: for a user with `level >= 1` and `0 <= currentXP < 1000`
and a non-negative amount with `currentXP + amount < 2000` (so every amount up
to 1000), the state after `addXP` again has `level >= 1` and
`0 <= currentXP < 1000`, with `currentXP` the remainder of `currentXP + amount`
modulo 1000, and `totalXP` is not smaller than before.  The bound is exact:
with a larger amount `currentXP` ends at 1000 or more. -/
theorem addXP_range (u : User) (amount : Int) (hl : 1 ≤ u.level) (h0 : 0 ≤ u.currentXP)
    (h1 : u.currentXP < 1000) (ha : 0 ≤ amount) :
    (u.currentXP + amount < 2000 →
      1 ≤ (addXP amount u).level ∧ 0 ≤ (addXP amount u).currentXP ∧
      (addXP amount u).currentXP < 1000 ∧
      (addXP amount u).currentXP = (u.currentXP + amount) % 1000 ∧
      u.totalXP ≤ (addXP amount u).totalXP) ∧
    (2000 ≤ u.currentXP + amount → 1000 ≤ (addXP amount u).currentXP) := by
  constructor
  · intro h2
    by_cases h : u.currentXP + amount ≥ 1000
    · simp only [addXP, h, if_true]
      refine ⟨by omega, by omega, by omega, by omega, by omega⟩
    · simp only [addXP, h, if_false]
      refine ⟨by omega, by omega, by omega, by omega, by omega⟩
  · intro h2
    have h : u.currentXP + amount ≥ 1000 := by omega
    simp only [addXP, h, if_true]
    omega

/-- Witness of C12 as amended: 800 + 300 wraps to 100 on level 3. -/
theorem addXP_range_witness :
    (addXP 300 ⟨2, 800, 1800, 3, "2024-05-01"⟩).currentXP < 1000 ∧
    (addXP 300 ⟨2, 800, 1800, 3, "2024-05-01"⟩).currentXP = (800 + 300) % 1000 ∧
    1000 ≤ (addXP 1500 ⟨2, 800, 1800, 3, "2024-05-01"⟩).currentXP :=
  ⟨((addXP_range ⟨2, 800, 1800, 3, "2024-05-01"⟩ 300 (by decide) (by decide) (by decide)
      (by decide)).1 (by decide)).2.2.1,
   ((addXP_range ⟨2, 800, 1800, 3, "2024-05-01"⟩ 300 (by decide) (by decide) (by decide)
      (by decide)).1 (by decide)).2.2.2.1,
   (addXP_range ⟨2, 800, 1800, 3, "2024-05-01"⟩ 1500 (by decide) (by decide) (by decide)
      (by decide)).2 (by decide)⟩

/-- The ledger equation is kept by one call of `addXP`, whatever the amount. -/
theorem ledger_step_addXP (u : User) (amount : Int)
    (h : u.totalXP = 1000 * (u.level - 1) + u.currentXP) :
    (addXP amount u).totalXP
      = 1000 * ((addXP amount u).level - 1) + (addXP amount u).currentXP := by
  by_cases hc : u.currentXP + amount ≥ 1000
  · simp only [addXP, hc, if_true]
    omega
  · simp only [addXP, hc, if_false]
    omega

/-- The ledger equation is kept by any sequence of calls of `addXP`. -/
theorem ledger_foldl_addXP (amounts : List Int) (u : User)
    (h : u.totalXP = 1000 * (u.level - 1) + u.currentXP) :
    (amounts.foldl (fun v amount => addXP amount v) u).totalXP
      = 1000 * ((amounts.foldl (fun v amount => addXP amount v) u).level - 1)
        + (amounts.foldl (fun v amount => addXP amount v) u).currentXP := by
  induction amounts generalizing u with
  | nil => exact h
  | cons amount rest ih => exact ih (addXP amount u) (ledger_step_addXP u amount h)

/-- The callback of `updateDailyTasks` keeps the task invariant. -/
theorem updateTask_invariant (t : Task)
    (h : 0 ≤ t.current ∧ t.current ≤ t.target ∧ (t.completed = true ↔ t.current ≥ t.target)) :
    0 ≤ (updateTask t).1.current ∧ (updateTask t).1.current ≤ (updateTask t).1.target ∧
    ((updateTask t).1.completed = true ↔ (updateTask t).1.current ≥ (updateTask t).1.target) := by
  obtain ⟨h0, h1, h2⟩ := h
  by_cases hf : t.type = "focus" ∧ t.completed = false
  · have hlt : ¬ t.current ≥ t.target := by
      intro hge
      have := h2.mpr hge
      rw [hf.2] at this
      exact Bool.noConfusion this
    by_cases hc : t.current + 1 ≥ t.target
    · simp only [updateTask, hf, and_self, hc, if_true]
      refine ⟨by omega, by omega, ?_⟩
      simp [hc]
    · simp only [updateTask, hf, and_self, hc, if_true, if_false]
      refine ⟨by omega, by omega, ?_⟩
      simp [hf.2, hc]
  · have hu : updateTask t = (t, []) := by simp [updateTask, hf]
    rw [hu]
    exact ⟨h0, h1, h2⟩

/-- C13: if every task of the groups dated `today` satisfies
`0 <= current <= target` and `completed` exactly when `current >= target`, then
after `updateDailyTasks` every task of the groups dated `today` satisfies both
again, so `current` never exceeds `target`; the default tasks satisfy both. -/
theorem updateDailyTasks_invariant (today : String) (prev : List TaskGroup)
    (h : ∀ g ∈ prev, g.date = today → ∀ t ∈ g.tasks,
      0 ≤ t.current ∧ t.current ≤ t.target ∧ (t.completed = true ↔ t.current ≥ t.target)) :
    (∀ g ∈ (updateDailyTasks today prev).1, g.date = today → ∀ t ∈ g.tasks,
      0 ≤ t.current ∧ t.current ≤ t.target ∧ (t.completed = true ↔ t.current ≥ t.target)) ∧
    (∀ t ∈ defaultTasks,
      0 ≤ t.current ∧ t.current ≤ t.target ∧ (t.completed = true ↔ t.current ≥ t.target)) := by
  constructor
  · intro g hg hd t ht
    simp only [updateDailyTasks, List.map_map, List.mem_map, Function.comp] at hg
    obtain ⟨g0, hg0, rfl⟩ := hg
    by_cases hd0 : g0.date = today
    · simp only [updateGroup, hd0, if_true, List.map_map, List.mem_map, Function.comp] at ht
      obtain ⟨t0, ht0, rfl⟩ := ht
      exact updateTask_invariant t0 (h g0 hg0 hd0 t0 ht0)
    · have hd1 : (updateGroup today g0).1.date = g0.date := by simp [updateGroup, hd0]
      exact absurd (hd1.symm.trans hd) hd0
  · decide

/-- Witness of C13: a focus task at 2 of 3 in today's group, recorded once. -/
theorem updateDailyTasks_invariant_witness :
    (updateTask ⟨"focus1", "focus", "t", "d", 3, 2, false, 50⟩).1
      ∈ (updateGroup "2024-05-01"
          ⟨"2024-05-01", [⟨"focus1", "focus", "t", "d", 3, 2, false, 50⟩]⟩).1.tasks ∧
    (updateTask ⟨"focus1", "focus", "t", "d", 3, 2, false, 50⟩).1.current
      ≤ (updateTask ⟨"focus1", "focus", "t", "d", 3, 2, false, 50⟩).1.target ∧
    ((updateTask ⟨"focus1", "focus", "t", "d", 3, 2, false, 50⟩).1.completed = true ↔
      (updateTask ⟨"focus1", "focus", "t", "d", 3, 2, false, 50⟩).1.current
        ≥ (updateTask ⟨"focus1", "focus", "t", "d", 3, 2, false, 50⟩).1.target) :=
  ⟨by decide,
   ((updateDailyTasks_invariant "2024-05-01"
      [⟨"2024-05-01", [⟨"focus1", "focus", "t", "d", 3, 2, false, 50⟩]⟩] (by decide)).1
      (updateGroup "2024-05-01"
        ⟨"2024-05-01", [⟨"focus1", "focus", "t", "d", 3, 2, false, 50⟩]⟩).1
      (by decide) (by decide)
      (updateTask ⟨"focus1", "focus", "t", "d", 3, 2, false, 50⟩).1 (by decide)).2⟩

/-- C16: one call of `addXP` keeps the ledger equation
`totalXP = 1000 * (level - 1) + currentXP` for every amount, also one that
spans several levels; the default user satisfies it, and so does every state
reached from the default user by calls of `addXP`. -/
theorem addXP_ledger (u : User) (amount : Int) (today : String) (amounts : List Int) :
    (u.totalXP = 1000 * (u.level - 1) + u.currentXP →
      (addXP amount u).totalXP
        = 1000 * ((addXP amount u).level - 1) + (addXP amount u).currentXP) ∧
    (defaultUser today).totalXP
      = 1000 * ((defaultUser today).level - 1) + (defaultUser today).currentXP ∧
    (amounts.foldl (fun v x => addXP x v) (defaultUser today)).totalXP
      = 1000 * ((amounts.foldl (fun v x => addXP x v) (defaultUser today)).level - 1)
        + (amounts.foldl (fun v x => addXP x v) (defaultUser today)).currentXP :=
  ⟨ledger_step_addXP u amount, by simp [defaultUser],
    ledger_foldl_addXP amounts (defaultUser today) (by simp [defaultUser])⟩

/-- Witness of C16: 2500 points at once on a user at level 2 with 800 points. -/
theorem addXP_ledger_witness :
    (addXP 2500 ⟨2, 800, 1800, 3, "2024-05-01"⟩).totalXP
      = 1000 * ((addXP 2500 ⟨2, 800, 1800, 3, "2024-05-01"⟩).level - 1)
        + (addXP 2500 ⟨2, 800, 1800, 3, "2024-05-01"⟩).currentXP :=
  (addXP_ledger ⟨2, 800, 1800, 3, "2024-05-01"⟩ 2500 "2024-05-01" []).1 (by decide)

/-! ## Invariants of the timer -/

/-- With positive settings in the render it belongs to, `completeSession` loads
a positive duration. -/
theorem completeSessionFrom_invariant (closure s : TimerState)
    (h : 1 ≤ s.cycle ∧ 1 ≤ closure.settings.focusTime ∧ 1 ≤ closure.settings.shortBreak ∧
      1 ≤ closure.settings.longBreak) :
    0 < (completeSessionFrom closure s).time ∧
    (completeSessionFrom closure s).time = (completeSessionFrom closure s).totalTime ∧
    1 ≤ (completeSessionFrom closure s).cycle ∧
    (completeSessionFrom closure s).settings = s.settings := by
  obtain ⟨hc, hf, hs, hl⟩ := h
  cases hp : closure.phase <;> by_cases h4 : closure.cycle % 4 = 0 <;>
    simp [completeSessionFrom, hp, h4] <;> omega

/-- The tick effect keeps the properties of the cells it is given, and every
interval it leaves belongs to a render with positive settings. -/
theorem tickEffect_invariant (prev : TimerHook) (next : TimerState)
    (hi : ∀ c, prev.interval = some c →
      1 ≤ c.settings.focusTime ∧ 1 ≤ c.settings.shortBreak ∧ 1 ≤ c.settings.longBreak)
    (h : 0 ≤ next.time ∧ next.time ≤ next.totalTime ∧ 1 ≤ next.cycle ∧
      1 ≤ next.settings.focusTime ∧ 1 ≤ next.settings.shortBreak ∧
      1 ≤ next.settings.longBreak) :
    (0 ≤ (tickEffect prev next).cells.time ∧
      (tickEffect prev next).cells.time ≤ (tickEffect prev next).cells.totalTime ∧
      1 ≤ (tickEffect prev next).cells.cycle ∧
      1 ≤ (tickEffect prev next).cells.settings.focusTime ∧
      1 ≤ (tickEffect prev next).cells.settings.shortBreak ∧
      1 ≤ (tickEffect prev next).cells.settings.longBreak) ∧
    (∀ c, (tickEffect prev next).interval = some c →
      1 ≤ c.settings.focusTime ∧ 1 ≤ c.settings.shortBreak ∧ 1 ≤ c.settings.longBreak) := by
  refine ⟨h, ?_⟩
  intro c hc
  simp only [tickEffect] at hc
  split at hc
  · split at hc
    · cases hc
      exact h.2.2.2
    · cases hc
  · exact hi c hc

/-- One event keeps the range of `time`, the lower bound of `cycle` and the
positivity of the stored settings and of the settings that the pending
interval reads, when the settings it brings are positive. -/
theorem apply_invariant (e : TimerEvent) (h : TimerHook)
    (he : ∀ ns, e = TimerEvent.updateSettings ns →
      1 ≤ ns.focusTime ∧ 1 ≤ ns.shortBreak ∧ 1 ≤ ns.longBreak)
    (hcells : 0 ≤ h.cells.time ∧ h.cells.time ≤ h.cells.totalTime ∧ 1 ≤ h.cells.cycle ∧
      1 ≤ h.cells.settings.focusTime ∧ 1 ≤ h.cells.settings.shortBreak ∧
      1 ≤ h.cells.settings.longBreak)
    (hi : ∀ c, h.interval = some c →
      1 ≤ c.settings.focusTime ∧ 1 ≤ c.settings.shortBreak ∧ 1 ≤ c.settings.longBreak) :
    (0 ≤ (e.apply h).cells.time ∧ (e.apply h).cells.time ≤ (e.apply h).cells.totalTime ∧
      1 ≤ (e.apply h).cells.cycle ∧ 1 ≤ (e.apply h).cells.settings.focusTime ∧
      1 ≤ (e.apply h).cells.settings.shortBreak ∧
      1 ≤ (e.apply h).cells.settings.longBreak) ∧
    (∀ c, (e.apply h).interval = some c →
      1 ≤ c.settings.focusTime ∧ 1 ≤ c.settings.shortBreak ∧ 1 ≤ c.settings.longBreak) := by
  obtain ⟨h0, h1, hc, hf, hs, hl⟩ := hcells
  cases e with
  | startTimer => exact tickEffect_invariant h _ hi ⟨h0, h1, hc, hf, hs, hl⟩
  | pauseTimer => exact tickEffect_invariant h _ hi ⟨h0, h1, hc, hf, hs, hl⟩
  | tick =>
    simp only [TimerEvent.apply, tick]
    cases hint : h.interval with
    | none => exact ⟨⟨h0, h1, hc, hf, hs, hl⟩, hi⟩
    | some closure =>
      obtain ⟨cf, cs, cl⟩ := hi closure hint
      have hcs := completeSessionFrom_invariant closure h.cells ⟨hc, cf, cs, cl⟩
      simp only
      split
      · refine tickEffect_invariant h _ hi ⟨by omega, by omega, hcs.2.2.1, ?_, ?_, ?_⟩
        · rw [hcs.2.2.2]; exact hf
        · rw [hcs.2.2.2]; exact hs
        · rw [hcs.2.2.2]; exact hl
      · exact tickEffect_invariant h _ hi ⟨by simp only; omega, by simp only; omega, hc, hf, hs, hl⟩
  | resetTimer =>
    refine tickEffect_invariant h _ hi ?_
    simp only [resetTimer]
    cases hp : h.cells.phase <;> simp <;> omega
  | skipPhase =>
    have hcs := completeSessionFrom_invariant h.cells h.cells ⟨hc, hf, hs, hl⟩
    rw [completeSessionFrom_self] at hcs
    refine tickEffect_invariant h _ hi ⟨?_, ?_, hcs.2.2.1, ?_, ?_, ?_⟩
    · simp only [skipPhase]; omega
    · simp only [skipPhase]; omega
    · simp only [skipPhase]; rw [hcs.2.2.2]; exact hf
    · simp only [skipPhase]; rw [hcs.2.2.2]; exact hs
    · simp only [skipPhase]; rw [hcs.2.2.2]; exact hl
  | updateSettings ns =>
    obtain ⟨nf, nsb, nl⟩ := he ns rfl
    refine tickEffect_invariant h _ hi ?_
    simp only [updateSettings]
    cases hr : h.cells.isRunning <;> cases hp : h.cells.phase <;> simp <;> omega

/-- A sequence of events keeps the same properties. -/
theorem runEvents_keeps_range (events : List TimerEvent) (h : TimerHook)
    (he : ∀ ns, TimerEvent.updateSettings ns ∈ events →
      1 ≤ ns.focusTime ∧ 1 ≤ ns.shortBreak ∧ 1 ≤ ns.longBreak)
    (hcells : 0 ≤ h.cells.time ∧ h.cells.time ≤ h.cells.totalTime ∧ 1 ≤ h.cells.cycle ∧
      1 ≤ h.cells.settings.focusTime ∧ 1 ≤ h.cells.settings.shortBreak ∧
      1 ≤ h.cells.settings.longBreak)
    (hi : ∀ c, h.interval = some c →
      1 ≤ c.settings.focusTime ∧ 1 ≤ c.settings.shortBreak ∧ 1 ≤ c.settings.longBreak) :
    0 ≤ (runEvents events h).cells.time ∧
    (runEvents events h).cells.time ≤ (runEvents events h).cells.totalTime ∧
    1 ≤ (runEvents events h).cells.cycle := by
  induction events generalizing h with
  | nil => exact ⟨hcells.1, hcells.2.1, hcells.2.2.1⟩
  | cons e rest ih =>
    simp only [runEvents]
    have hstep := apply_invariant e h
      (fun ns hns => he ns (hns ▸ List.mem_cons_self _ _)) hcells hi
    exact ih (e.apply h) (fun ns hns => he ns (List.mem_cons_of_mem e hns)) hstep.1 hstep.2

/-- C14: in every timer state reached from the initial state (`time` and
`totalTime` 1500, focus, cycle 1, stopped) by a sequence of `startTimer`,
`pauseTimer`, ticks, `resetTimer`, `skipPhase` and `updateSettings` with
settings that are all at least 1, `0 <= time <= totalTime` and `cycle >= 1`. -/
theorem runEvents_invariant (events : List TimerEvent)
    (he : ∀ ns, TimerEvent.updateSettings ns ∈ events →
      1 ≤ ns.focusTime ∧ 1 ≤ ns.shortBreak ∧ 1 ≤ ns.longBreak) :
    (initHook none).cells = ⟨1500, 1500, false, Phase.focus, 1, defaultSettings⟩ ∧
    0 ≤ (runEvents events (initHook none)).cells.time ∧
    (runEvents events (initHook none)).cells.time
      ≤ (runEvents events (initHook none)).cells.totalTime ∧
    1 ≤ (runEvents events (initHook none)).cells.cycle :=
  ⟨rfl, runEvents_keeps_range events (initHook none) he (by decide)
    (fun c hc => Option.noConfusion
      ((show (initHook none).interval = none from rfl).symm.trans hc))⟩

/-- Witness of C14: start, tick, change the settings while running, skip, reset. -/
theorem runEvents_invariant_witness :
    0 ≤ (runEvents [TimerEvent.startTimer, TimerEvent.tick,
        TimerEvent.updateSettings ⟨50, 10, 30⟩, TimerEvent.skipPhase, TimerEvent.resetTimer]
        (initHook none)).cells.time ∧
    (runEvents [TimerEvent.startTimer, TimerEvent.tick,
        TimerEvent.updateSettings ⟨50, 10, 30⟩, TimerEvent.skipPhase, TimerEvent.resetTimer]
        (initHook none)).cells.time
      ≤ (runEvents [TimerEvent.startTimer, TimerEvent.tick,
        TimerEvent.updateSettings ⟨50, 10, 30⟩, TimerEvent.skipPhase, TimerEvent.resetTimer]
        (initHook none)).cells.totalTime :=
  ⟨(runEvents_invariant [TimerEvent.startTimer, TimerEvent.tick,
      TimerEvent.updateSettings ⟨50, 10, 30⟩, TimerEvent.skipPhase, TimerEvent.resetTimer]
      (by intro ns h; simp at h; subst h; decide)).2.1,
   (runEvents_invariant [TimerEvent.startTimer, TimerEvent.tick,
      TimerEvent.updateSettings ⟨50, 10, 30⟩, TimerEvent.skipPhase, TimerEvent.resetTimer]
      (by intro ns h; simp at h; subst h; decide)).2.2.1⟩

/-! ## The settings form -/

/-- Whatever is typed, `handleUpdate` leaves the two other fields as they were
and never stores 0 in the edited field; a text without a leading number gives 1,
and a text that reads as a non-zero integer gives that integer. -/
theorem handleUpdate_fields (localSettings : Settings) (value : String) :
    (handleUpdate localSettings SettingsKey.focusTime value).shortBreak
      = localSettings.shortBreak ∧
    (handleUpdate localSettings SettingsKey.focusTime value).longBreak
      = localSettings.longBreak ∧
    (handleUpdate localSettings SettingsKey.focusTime value).focusTime ≠ 0 ∧
    (parseInt value = none →
      (handleUpdate localSettings SettingsKey.focusTime value).focusTime = 1) ∧
    (∀ n : Int, parseInt value = some n → n ≠ 0 →
      (handleUpdate localSettings SettingsKey.focusTime value).focusTime = n) := by
  refine ⟨rfl, rfl, ?_, ?_, ?_⟩
  · cases hp : parseInt value with
    | none => simp [handleUpdate, hp]
    | some n => by_cases hn : n = 0 <;> simp [handleUpdate, hp, hn]
  · intro hp
    simp [handleUpdate, hp]
  · intro n hp hn
    simp [handleUpdate, hp, hn]

/-- C15, evaluated on the code: typing `-5` into the focus field of the default
settings makes `handleUpdate` pass `focusTime = -5`, which is below 1, to
`updateSettings`; on the stopped initial timer this loads `time = -300`. -/
theorem handleUpdate_negative :
    parseInt "-5" = some (-5) ∧
    handleUpdate defaultSettings SettingsKey.focusTime "-5" = ⟨-5, 5, 15⟩ ∧
    (handleUpdate defaultSettings SettingsKey.focusTime "-5").focusTime < 1 ∧
    (updateSettings (handleUpdate defaultSettings SettingsKey.focusTime "-5")
      (initTimer none)).time = -300 ∧
    handleUpdate defaultSettings SettingsKey.focusTime "abc" = ⟨1, 5, 15⟩ ∧
    handleUpdate defaultSettings SettingsKey.focusTime "0" = ⟨1, 5, 15⟩ ∧
    handleUpdate defaultSettings SettingsKey.focusTime "40" = ⟨40, 5, 15⟩ := by
  decide

end FocusFlow
